import Mathlib

/-!
Verification of the TSLA options credit-spread tracker core against its
natural-language specification.

The embedding follows the enhanced API route (src/unnamed/part_001: the
`tsla-options` route with `calculateProbOfProfit`, `findCreditSpreads`,
`getCurrentPrice`, `GET`), the in-memory TTL cache (src/unnamed/part_006,
`SimpleCache`) and the polling broadcast hub (src/unnamed/part_006,
`WebSocketManager`).  `src/app/api/tsla-options/route.ts` is an older copy of
the same route with different thresholds; the spec and claims describe the
enhanced version, which is the one embedded here.

Modelling conventions:
* JavaScript numbers are modelled exactly (no rounding): plain rationals `ℚ`
  where the source only adds, subtracts, multiplies and compares finite
  values, and the extended types `JSq` (over `ℚ`) / `JSR` (over `ℝ`) where the
  source can produce `Infinity`, `-Infinity` or `NaN` (division by zero,
  `Math.log`, `Math.sqrt`, `Math.exp`).  Signed zero is not distinguished.
* `Date.now()` is an explicit parameter `now` (milliseconds, `ℤ`);
  option expirations are unix seconds (`ℤ`) as in the Yahoo payload.
* `async`/`fetch` results are explicit `FetchOutcome` parameters: a fetch (or
  `.json()`) either yields structured data or throws.
-/

/-! ### Extended rational values (JavaScript number results over `ℚ`)

`JSq` is the value of a JavaScript arithmetic expression whose operands are
finite and representable as rationals: either a finite number, one of the two
infinities, or `NaN`. -/

inductive JSq where
  | num (q : ℚ)
  | posInf
  | negInf
  | nan
deriving DecidableEq, Repr

/-- JavaScript division `a / b` of two finite numbers: `x / 0` is `±Infinity`
for `x ≠ 0` (the dividend zero has positive sign in our model) and `0 / 0` is
`NaN`. -/
def jsDivq (a b : ℚ) : JSq :=
  if b = 0 then (if a = 0 then JSq.nan else if a < 0 then JSq.negInf else JSq.posInf)
  else JSq.num (a / b)

/-- JavaScript comparison `x > c` against a finite literal `c`:
false whenever `x` is `NaN`. -/
def JSq.gtqB (x : JSq) (c : ℚ) : Bool :=
  match x with
  | .num q => decide (c < q)
  | .posInf => true
  | .negInf => false
  | .nan => false

/-- The order used by `recommendations.sort((a, b) => b.riskRewardRatio -
a.riskRewardRatio)`: `leDesc x y` holds when an element with ratio `x` may be
placed before one with ratio `y` (comparator value `y - x ≤ 0`, ECMAScript
coerces a `NaN` comparator result to `+0`).  On the values that actually reach
the comparator in this program (`num`/`posInf`: every stored ratio passed
`> 0.25`) this agrees exactly with the ECMAScript semantics; the rows placing
`nan` at the bottom are chosen so the relation is total and transitive, which
the ECMAScript specification leaves implementation-defined for inconsistent
comparators. -/
def JSq.leDesc : JSq → JSq → Bool
  | .nan, _ => true
  | _, .nan => false
  | .posInf, _ => true
  | _, .posInf => false
  | .num a, .num b => decide (b ≤ a)
  | .num _, .negInf => true
  | .negInf, .num _ => false
  | .negInf, .negInf => true

/-! ### Extended real values (JavaScript number results over `ℝ`)

The probability model applies `Math.log`, `Math.sqrt`, `Math.exp` and division
to arbitrary real intermediates, so its values are modelled in `JSR`, an
extended real with explicit `NaN` propagation mirroring IEEE-754 /
ECMAScript `Math` semantics (rounding and signed zero are not modelled). -/

inductive JSR where
  | num (x : ℝ)
  | posInf
  | negInf
  | nan

open scoped Classical

noncomputable def JSR.add : JSR → JSR → JSR
  | .nan, _ => .nan
  | _, .nan => .nan
  | .num x, .num y => .num (x + y)
  | .num _, .posInf => .posInf
  | .posInf, .num _ => .posInf
  | .num _, .negInf => .negInf
  | .negInf, .num _ => .negInf
  | .posInf, .posInf => .posInf
  | .negInf, .negInf => .negInf
  | .posInf, .negInf => .nan
  | .negInf, .posInf => .nan

noncomputable def JSR.neg : JSR → JSR
  | .num x => .num (-x)
  | .posInf => .negInf
  | .negInf => .posInf
  | .nan => .nan

noncomputable def JSR.sub (a b : JSR) : JSR := JSR.add a (JSR.neg b)

noncomputable def JSR.mul : JSR → JSR → JSR
  | .nan, _ => .nan
  | _, .nan => .nan
  | .num x, .num y => .num (x * y)
  | .num x, .posInf => if x = 0 then .nan else if x < 0 then .negInf else .posInf
  | .num x, .negInf => if x = 0 then .nan else if x < 0 then .posInf else .negInf
  | .posInf, .num y => if y = 0 then .nan else if y < 0 then .negInf else .posInf
  | .negInf, .num y => if y = 0 then .nan else if y < 0 then .posInf else .negInf
  | .posInf, .posInf => .posInf
  | .posInf, .negInf => .negInf
  | .negInf, .posInf => .negInf
  | .negInf, .negInf => .posInf

noncomputable def JSR.div : JSR → JSR → JSR
  | .nan, _ => .nan
  | _, .nan => .nan
  | .posInf, .posInf => .nan
  | .posInf, .negInf => .nan
  | .negInf, .posInf => .nan
  | .negInf, .negInf => .nan
  | .posInf, .num y => if y < 0 then .negInf else .posInf
  | .negInf, .num y => if y < 0 then .posInf else .negInf
  | .num _, .posInf => .num 0
  | .num _, .negInf => .num 0
  | .num x, .num y =>
      if y = 0 then (if x = 0 then .nan else if x < 0 then .negInf else .posInf)
      else .num (x / y)

/-- `Math.log`: `NaN` on negative arguments, `-Infinity` at zero. -/
noncomputable def JSR.log : JSR → JSR
  | .num x => if x < 0 then .nan else if x = 0 then .negInf else .num (Real.log x)
  | .posInf => .posInf
  | .negInf => .nan
  | .nan => .nan

/-- `Math.sqrt`: `NaN` on negative arguments. -/
noncomputable def JSR.sqrtJ : JSR → JSR
  | .num x => if x < 0 then .nan else .num (Real.sqrt x)
  | .posInf => .posInf
  | .negInf => .nan
  | .nan => .nan

/-- `Math.exp`. -/
noncomputable def JSR.expJ : JSR → JSR
  | .num x => .num (Real.exp x)
  | .posInf => .posInf
  | .negInf => .num 0
  | .nan => .nan

/-- `Math.sign`. -/
noncomputable def JSR.signJ : JSR → JSR
  | .num x => if x < 0 then .num (-1) else if x = 0 then .num 0 else .num 1
  | .posInf => .num 1
  | .negInf => .num (-1)
  | .nan => .nan

/-- JavaScript `<` as a proposition; false on `NaN` operands. -/
def JSR.ltP : JSR → JSR → Prop
  | .num x, .num y => x < y
  | .num _, .posInf => True
  | .negInf, .num _ => True
  | .negInf, .posInf => True
  | _, _ => False

/-- JavaScript `>` as a proposition; false on `NaN` operands. -/
def JSR.gtP (a b : JSR) : Prop := JSR.ltP b a

/-- `Math.max` (binary): `NaN` if either argument is `NaN`. -/
noncomputable def JSR.maxJ : JSR → JSR → JSR
  | .nan, _ => .nan
  | _, .nan => .nan
  | .posInf, _ => .posInf
  | _, .posInf => .posInf
  | .negInf, y => y
  | x, .negInf => x
  | .num x, .num y => .num (max x y)

/-- `Math.min` (binary): `NaN` if either argument is `NaN`. -/
noncomputable def JSR.minJ : JSR → JSR → JSR
  | .nan, _ => .nan
  | _, .nan => .nan
  | .negInf, _ => .negInf
  | _, .negInf => .negInf
  | .posInf, y => y
  | x, .posInf => x
  | .num x, .num y => .num (min x y)

/-- Membership of a `JSR` value in a closed real interval; infinities and
`NaN` lie in no interval. -/
def JSR.inRange (lo hi : ℝ) : JSR → Prop
  | .num x => lo ≤ x ∧ x ≤ hi
  | _ => False

inductive SpreadType where
  | call
  | put
deriving DecidableEq, Repr

/-- `calculateProbOfProfit` from src/unnamed/part_001 (lines 270-292),
operand for operand:

```
const timeToExpiration = daysToExp / 365
const breakeven = type === 'call' ? shortStrike + creditReceived
                                  : shortStrike - creditReceived
const d = Math.log(currentPrice / breakeven)
          / (impliedVol * Math.sqrt(timeToExpiration))
const cdf = 0.5 * (1 + Math.sign(d) * Math.sqrt(1 - Math.exp(-2 * d * d / Math.PI)))
let probability = type === 'call' ? (1 - cdf) * 100 : cdf * 100
probability += Math.max(0, (10 - daysToExp) * 2)
const moneyness = currentPrice / shortStrike
if (type === 'call' && moneyness < 0.95) probability += 10
if (type === 'put' && moneyness > 1.05) probability += 10
return Math.min(Math.max(probability, 20), 85)
```

Finite inputs are reals; intermediates follow the `JSR` semantics. -/
noncomputable def calculateProbOfProfit (currentPrice shortStrike creditReceived : ℝ)
    (type : SpreadType) (impliedVol : ℝ) (daysToExp : ℝ) : JSR :=
  let timeToExpiration : ℝ := daysToExp / 365
  let breakeven : ℝ :=
    match type with
    | .call => shortStrike + creditReceived
    | .put => shortStrike - creditReceived
  let d : JSR :=
    JSR.div (JSR.log (JSR.div (.num currentPrice) (.num breakeven)))
      (JSR.mul (.num impliedVol) (JSR.sqrtJ (.num timeToExpiration)))
  let cdf : JSR :=
    JSR.mul (.num 0.5)
      (JSR.add (.num 1)
        (JSR.mul (JSR.signJ d)
          (JSR.sqrtJ (JSR.sub (.num 1)
            (JSR.expJ (JSR.div (JSR.mul (JSR.mul (.num (-2)) d) d) (.num Real.pi)))))))
  let probability0 : JSR :=
    match type with
    | .call => JSR.mul (JSR.sub (.num 1) cdf) (.num 100)
    | .put => JSR.mul cdf (.num 100)
  let probability1 : JSR := JSR.add probability0 (.num (max 0 ((10 - daysToExp) * 2)))
  let moneyness : JSR := JSR.div (.num currentPrice) (.num shortStrike)
  let probability2 : JSR :=
    if type = SpreadType.call ∧ JSR.ltP moneyness (.num 0.95)
    then JSR.add probability1 (.num 10) else probability1
  let probability3 : JSR :=
    if type = SpreadType.put ∧ JSR.gtP moneyness (.num 1.05)
    then JSR.add probability2 (.num 10) else probability2
  JSR.minJ (JSR.maxJ probability3 (.num 20)) (.num 85)

/-- Modelled from the spec (section 4.3 Probability Model), word for word, for
the refinement claim C4: distance `d = ln(currentPrice / breakeven) /
(impliedVol * sqrt(daysToExpiration / 365))` with breakeven `shortStrike +
credit` (call) / `shortStrike - credit` (put); `cdf = 0.5 * (1 + sign(d) *
sqrt(1 - exp(-2 d^2 / pi)))`; base probability `(1 - cdf) * 100` for calls and
`cdf * 100` for puts; time-decay bonus `max(0, (10 - daysToExpiration) * 2)`;
a flat 10-point bonus when `currentPrice / shortStrike < 0.95` (calls) or
`> 1.05` (puts); result clamped to `[20, 85]`. -/
noncomputable def probOfProfitSpec (currentPrice shortStrike creditReceived : ℝ)
    (type : SpreadType) (impliedVol : ℝ) (daysToExp : ℝ) : JSR :=
  let breakeven : ℝ :=
    match type with
    | .call => shortStrike + creditReceived
    | .put => shortStrike - creditReceived
  let d : JSR :=
    JSR.div (JSR.log (JSR.div (.num currentPrice) (.num breakeven)))
      (JSR.mul (.num impliedVol) (JSR.sqrtJ (.num (daysToExp / 365))))
  let cdf : JSR :=
    JSR.mul (.num 0.5)
      (JSR.add (.num 1)
        (JSR.mul (JSR.signJ d)
          (JSR.sqrtJ (JSR.sub (.num 1)
            (JSR.expJ (JSR.div (JSR.mul (JSR.mul (.num (-2)) d) d) (.num Real.pi)))))))
  let base : JSR :=
    match type with
    | .call => JSR.mul (JSR.sub (.num 1) cdf) (.num 100)
    | .put => JSR.mul cdf (.num 100)
  let withDecay : JSR := JSR.add base (.num (max 0 ((10 - daysToExp) * 2)))
  let ratio : JSR := JSR.div (.num currentPrice) (.num shortStrike)
  let withBonusCall : JSR :=
    if type = SpreadType.call ∧ JSR.ltP ratio (.num 0.95)
    then JSR.add withDecay (.num 10) else withDecay
  let withBonusPut : JSR :=
    if type = SpreadType.put ∧ JSR.gtP ratio (.num 1.05)
    then JSR.add withBonusCall (.num 10) else withBonusCall
  JSR.minJ (JSR.maxJ withBonusPut (.num 20)) (.num 85)

/-! ### Option contracts and the spread pairing engine
(src/unnamed/part_001, lines 235-374) -/

/-- `OptionContract` (src/unnamed/part_001, lines 235-246).  Strikes, quotes
and implied volatility are finite JavaScript numbers, modelled as rationals;
`expiration` is a unix timestamp in seconds, as delivered by the chain
source. -/
structure OptionContract where
  contractSymbol : String
  strike : ℚ
  expiration : ℤ
  bid : ℚ
  ask : ℚ
  lastPrice : ℚ
  volume : ℚ
  openInterest : ℚ
  impliedVolatility : ℚ
  inTheMoney : Bool
deriving DecidableEq, Repr

/-- `CreditSpreadRecommendation` (src/unnamed/part_001, lines 248-260).
`riskRewardRatio` is stored as the value of the JavaScript division
`maxProfit / maxLoss` (hence a `JSq`), and `probOfProfit` as the value of
`calculateProbOfProfit` (hence a `JSR`). -/
structure CreditSpreadRecommendation where
  type : SpreadType
  shortStrike : ℚ
  longStrike : ℚ
  expiration : String
  creditReceived : ℚ
  maxProfit : ℚ
  maxLoss : ℚ
  breakeven : ℚ
  probOfProfit : JSR
  riskRewardRatio : JSq
  daysToExpiration : ℤ

/-- Gregorian date of day number `z` (days since 1970-01-01, any sign),
used to model `new Date(ms).toISOString().split('T')[0]`. -/
def civilFromDays (z : ℤ) : ℤ × ℤ × ℤ :=
  let z2 := z + 719468
  let era := Int.fdiv z2 146097
  let doe := z2 - era * 146097
  let yoe := Int.fdiv (doe - Int.fdiv doe 1460 + Int.fdiv doe 36524 - Int.fdiv doe 146096) 365
  let y := yoe + era * 400
  let doy := doe - (365 * yoe + Int.fdiv yoe 4 - Int.fdiv yoe 100)
  let mp := Int.fdiv (5 * doy + 2) 153
  let d := doy - Int.fdiv (153 * mp + 2) 5 + 1
  let m := mp + (if mp < 10 then 3 else -9)
  (y + (if m ≤ 2 then 1 else 0), m, d)

/-- Zero-pad a calendar field to two digits. -/
def pad2 (n : ℤ) : String :=
  if n < 10 then "0" ++ toString n else toString n

/-- The date part of `new Date(ms).toISOString()` (UTC), i.e. the result of
`new Date(ms).toISOString().split('T')[0]` in the source. -/
def toISODateString (ms : ℤ) : String :=
  let day := Int.fdiv ms 86400000
  let ymd := civilFromDays day
  toString ymd.1 ++ "-" ++ pad2 ymd.2.1 ++ "-" ++ pad2 ymd.2.2

/-- `getDaysToExpiration` (src/unnamed/part_001, lines 263-267):
`Math.ceil((expiration * 1000 - Date.now()) / 86400000)`, with `now` in
milliseconds and `expiration` in unix seconds. -/
def getDaysToExpiration (expiration : ℤ) (now : ℤ) : ℤ :=
  Int.ceil (((expiration * 1000 - now : ℤ) : ℚ) / 86400000)

/-- The adjacent pairs `(l[i], l[i+1])` scanned by the
`for (let i = 0; i < arr.length - 1; i++)` loops. -/
def adjPairs {α : Type} : List α → List (α × α)
  | a :: b :: rest => (a, b) :: adjPairs (b :: rest)
  | _ => []

/-- The `targetOptions` filter of `findCreditSpreads`: contracts whose days to
expiration lie in the inclusive window `[targetDTE - 2, targetDTE + 2]`. -/
def targetOptionsOf (options : List OptionContract) (targetDTE : ℤ) (now : ℤ) :
    List OptionContract :=
  options.filter (fun option =>
    decide (getDaysToExpiration option.expiration now ≥ targetDTE - 2) &&
    decide (getDaysToExpiration option.expiration now ≤ targetDTE + 2))

/-- The `callOptions` filter: `!option.inTheMoney || option.strike > currentPrice`. -/
def callOptionsOf (options : List OptionContract) (currentPrice : ℚ)
    (targetDTE : ℤ) (now : ℤ) : List OptionContract :=
  (targetOptionsOf options targetDTE now).filter
    (fun option => !option.inTheMoney || decide (option.strike > currentPrice))

/-- The `putOptions` filter: `!option.inTheMoney || option.strike < currentPrice`. -/
def putOptionsOf (options : List OptionContract) (currentPrice : ℚ)
    (targetDTE : ℤ) (now : ℤ) : List OptionContract :=
  (targetOptionsOf options targetDTE now).filter
    (fun option => !option.inTheMoney || decide (option.strike < currentPrice))

/-- Body of the call-side loop of `findCreditSpreads` for one adjacent pair
`(shortOption, longOption)`: guarded by `longOption.strike >
shortOption.strike`, then by `creditReceived > 0.15 && maxProfit / maxLoss >
0.25 && daysToExp >= 5 && daysToExp <= 10` (the ratio test uses JavaScript
division, so a zero `maxLoss` with positive credit yields `Infinity`, which
passes `> 0.25`). -/
noncomputable def mkCallSpread (currentPrice : ℚ) (now : ℤ)
    (p : OptionContract × OptionContract) : Option CreditSpreadRecommendation :=
  let shortOption := p.1
  let longOption := p.2
  if longOption.strike > shortOption.strike then
    let creditReceived := shortOption.bid - longOption.ask
    let maxLoss := (longOption.strike - shortOption.strike) - creditReceived
    let maxProfit := creditReceived
    let daysToExp := getDaysToExpiration shortOption.expiration now
    let avgIV := (shortOption.impliedVolatility + longOption.impliedVolatility) / 2
    if decide (creditReceived > 0.15) && JSq.gtqB (jsDivq maxProfit maxLoss) 0.25 &&
        decide (daysToExp ≥ 5) && decide (daysToExp ≤ 10) then
      some
        { type := SpreadType.call
          shortStrike := shortOption.strike
          longStrike := longOption.strike
          expiration := toISODateString (shortOption.expiration * 1000)
          creditReceived := creditReceived
          maxProfit := maxProfit
          maxLoss := maxLoss
          breakeven := shortOption.strike + creditReceived
          probOfProfit := calculateProbOfProfit (currentPrice : ℝ)
            (shortOption.strike : ℝ) (creditReceived : ℝ) SpreadType.call
            (avgIV : ℝ) (daysToExp : ℝ)
          riskRewardRatio := jsDivq maxProfit maxLoss
          daysToExpiration := daysToExp }
    else none
  else none

/-- Body of the put-side loop of `findCreditSpreads` for one adjacent pair
`(shortOption, longOption)`: guarded by `longOption.strike <
shortOption.strike`, with `maxLoss = (shortStrike - longStrike) - credit` and
breakeven `shortStrike - credit`. -/
noncomputable def mkPutSpread (currentPrice : ℚ) (now : ℤ)
    (p : OptionContract × OptionContract) : Option CreditSpreadRecommendation :=
  let shortOption := p.1
  let longOption := p.2
  if longOption.strike < shortOption.strike then
    let creditReceived := shortOption.bid - longOption.ask
    let maxLoss := (shortOption.strike - longOption.strike) - creditReceived
    let maxProfit := creditReceived
    let daysToExp := getDaysToExpiration shortOption.expiration now
    let avgIV := (shortOption.impliedVolatility + longOption.impliedVolatility) / 2
    if decide (creditReceived > 0.15) && JSq.gtqB (jsDivq maxProfit maxLoss) 0.25 &&
        decide (daysToExp ≥ 5) && decide (daysToExp ≤ 10) then
      some
        { type := SpreadType.put
          shortStrike := shortOption.strike
          longStrike := longOption.strike
          expiration := toISODateString (shortOption.expiration * 1000)
          creditReceived := creditReceived
          maxProfit := maxProfit
          maxLoss := maxLoss
          breakeven := shortOption.strike - creditReceived
          probOfProfit := calculateProbOfProfit (currentPrice : ℝ)
            (shortOption.strike : ℝ) (creditReceived : ℝ) SpreadType.put
            (avgIV : ℝ) (daysToExp : ℝ)
          riskRewardRatio := jsDivq maxProfit maxLoss
          daysToExpiration := daysToExp }
    else none
  else none

/-- The call-side candidates pushed by the first loop of `findCreditSpreads`,
in loop order.  The loop scans adjacent pairs of `callOptions` in the order in
which the contracts appear in the input list (the source performs no sort
before pairing). -/
noncomputable def callSpreadCandidates (options : List OptionContract)
    (currentPrice : ℚ) (targetDTE : ℤ) (now : ℤ) :
    List CreditSpreadRecommendation :=
  (adjPairs (callOptionsOf options currentPrice targetDTE now)).filterMap
    (mkCallSpread currentPrice now)

/-- The put-side candidates pushed by the second loop of `findCreditSpreads`,
in loop order. -/
noncomputable def putSpreadCandidates (options : List OptionContract)
    (currentPrice : ℚ) (targetDTE : ℤ) (now : ℤ) :
    List CreditSpreadRecommendation :=
  (adjPairs (putOptionsOf options currentPrice targetDTE now)).filterMap
    (mkPutSpread currentPrice now)

/-- The `recommendations` array as built by the two loops of
`findCreditSpreads`, before sorting: call-side candidates first, then
put-side candidates. -/
noncomputable def creditSpreadCandidates (options : List OptionContract)
    (currentPrice : ℚ) (targetDTE : ℤ) (now : ℤ) :
    List CreditSpreadRecommendation :=
  callSpreadCandidates options currentPrice targetDTE now ++
    putSpreadCandidates options currentPrice targetDTE now

/-- The ordering applied by
`recommendations.sort((a, b) => b.riskRewardRatio - a.riskRewardRatio)`. -/
def recLeDesc (a b : CreditSpreadRecommendation) : Bool :=
  JSq.leDesc a.riskRewardRatio b.riskRewardRatio

/-- `findCreditSpreads` (src/unnamed/part_001, lines 295-374): build the
candidate list, sort it descending by risk/reward ratio (stable, as
ECMAScript `Array.prototype.sort` is), and return the first 10. -/
noncomputable def findCreditSpreads (options : List OptionContract)
    (currentPrice : ℚ) (targetDTE : ℤ) (now : ℤ) :
    List CreditSpreadRecommendation :=
  ((creditSpreadCandidates options currentPrice targetDTE now).mergeSort
    recLeDesc).take 10

/-! ### Quote source: `getCurrentPrice` (src/unnamed/part_001, lines 377-417) -/

/-- Result of a `fetch(...)` followed by `.json()`: either structured data or
a thrown exception (network error, malformed JSON). -/
inductive FetchOutcome (α : Type) where
  | ok (data : α)
  | thrown
deriving DecidableEq, Repr

/-- The part of the Yahoo quote payload the source reads:
`data.chart?.result?.[0]?.meta?.regularMarketPrice`.  `none` models any
missing link of the optional chain (the whole expression is `undefined`). -/
structure YahooChartData where
  regularMarketPrice : Option ℚ
deriving DecidableEq, Repr

/-- The part of the Alpha Vantage payload the source reads:
`data['Global Quote']?.['05. price']`, a decimal string.  We model a present,
well-formed numeric string by its rational value; a present string is always
truthy, so presence alone makes the branch fire (the source then applies
`parseFloat`). -/
structure AlphaQuoteData where
  globalQuotePrice : Option ℚ
deriving DecidableEq, Repr

/-- The part of the Financial Modeling Prep payload the source reads:
`data?.[0]?.price`. -/
structure FmpQuoteData where
  price : Option ℚ
deriving DecidableEq, Repr

/-- One run's provider environment for `getCurrentPrice`: the three fetch
outcomes, plus whether the Alpha Vantage / FMP API keys are configured
(`ALPHA_VANTAGE_KEY !== 'demo'`, `FMP_KEY !== 'demo'`), since those two
providers are only attempted when a key is set. -/
structure PriceEnv where
  yahoo : FetchOutcome YahooChartData
  alphaKeySet : Bool
  alpha : FetchOutcome AlphaQuoteData
  fmpKeySet : Bool
  fmp : FetchOutcome FmpQuoteData
deriving DecidableEq, Repr

/-- The value returned by the Yahoo branch, if any: the branch returns
`data.chart.result[0].meta.regularMarketPrice` when that chained access is
truthy (a number is truthy exactly when it is nonzero; `undefined` is falsy);
a thrown fetch is caught and logged. -/
def yahooBranchPrice : FetchOutcome YahooChartData → Option ℚ
  | .thrown => none
  | .ok d =>
    match d.regularMarketPrice with
    | some p => if p = 0 then none else some p
    | none => none

/-- The value returned by the Alpha Vantage branch, if any: skipped entirely
unless the key is set; returns `parseFloat(data['Global Quote']['05. price'])`
when the price string is present (a present numeric string is truthy, even
`"0"`). -/
def alphaBranchPrice (keySet : Bool) : FetchOutcome AlphaQuoteData → Option ℚ
  | .thrown => none
  | .ok d => if keySet then d.globalQuotePrice else none

/-- The value returned by the FMP branch, if any: skipped unless the key is
set; returns `data[0].price` when truthy (nonzero). -/
def fmpBranchPrice (keySet : Bool) : FetchOutcome FmpQuoteData → Option ℚ
  | .thrown => none
  | .ok d =>
    if keySet then
      match d.price with
      | some p => if p = 0 then none else some p
      | none => none
    else none

/-- `getCurrentPrice` (src/unnamed/part_001, lines 377-417): try Yahoo, then
Alpha Vantage, then FMP, in that order, returning the first branch value;
every provider failure is caught and logged; if no branch returns, the fixed
fallback `250` is returned.  (The Alpha Vantage branch is skipped when the key
is the `'demo'` placeholder, and likewise for FMP.) -/
def getCurrentPrice (env : PriceEnv) : ℚ :=
  match yahooBranchPrice env.yahoo with
  | some p => p
  | none =>
    match alphaBranchPrice env.alphaKeySet env.alpha with
    | some p => p
    | none =>
      match fmpBranchPrice env.fmpKeySet env.fmp with
      | some p => p
      | none => 250

/-! ### The `tsla-options` GET handler (src/unnamed/part_001, lines 419-512) -/

/-- The part of the Yahoo option-chain payload the handler reads.  A `none`
at `optionChain` or `result` models a falsy (`undefined`/`null`) field; an
empty `result` list models `result.length === 0`; `options` is the
`result[0].options` array (`none` when the field is absent, in which case
`result.options[0]` throws); `calls`/`puts` are the per-expiration contract
arrays, each defaulted to `[]` by `options.calls || []` when absent. -/
structure OptionsBlock where
  calls : Option (List OptionContract)
  puts : Option (List OptionContract)

structure ChainResultEntry where
  options : Option (List OptionsBlock)

structure ChainPayload where
  optionChain : Option (Option (List ChainResultEntry))

/-- The response payload `{ currentPrice, lastUpdate, recommendations }`.
`lastUpdate` (`new Date().toISOString()`) is modelled by the millisecond
timestamp it formats. -/
structure ResponseData where
  currentPrice : ℚ
  lastUpdate : ℤ
  recommendations : List CreditSpreadRecommendation

/-- The JSON body returned by the handler:
`{ success, data, cached? }` (`cached` is only set on the cache-hit path). -/
structure ApiResponse where
  success : Bool
  data : ResponseData
  cached : Bool

/-- The static fallback recommendation set (`mockRecommendations`,
src/unnamed/part_001, lines 474-501). -/
noncomputable def mockRecommendations (now : ℤ) : List CreditSpreadRecommendation :=
  [ { type := SpreadType.call
      shortStrike := 260
      longStrike := 265
      expiration := toISODateString (now + 7 * 24 * 60 * 60 * 1000)
      creditReceived := 1.25
      maxProfit := 1.25
      maxLoss := 3.75
      breakeven := 261.25
      probOfProfit := JSR.num 68
      riskRewardRatio := JSq.num 0.33
      daysToExpiration := 7 },
    { type := SpreadType.put
      shortStrike := 240
      longStrike := 235
      expiration := toISODateString (now + 7 * 24 * 60 * 60 * 1000)
      creditReceived := 1.10
      maxProfit := 1.10
      maxLoss := 3.90
      breakeven := 238.90
      probOfProfit := JSR.num 72
      riskRewardRatio := JSq.num 0.28
      daysToExpiration := 7 } ]

/-- The catch-branch response of the handler: mock data with `success: true`
and `currentPrice: 250.75`. -/
noncomputable def fallbackResponse (now : ℤ) : ApiResponse :=
  { success := true
    data :=
      { currentPrice := 250.75
        lastUpdate := now
        recommendations := mockRecommendations now }
    cached := false }

/-- The success-path contract extraction of the handler: every structural
check whose failure makes the `try` block throw (explicitly via
`throw new Error('No options data available')`, or implicitly via a
`TypeError` on a property access of `undefined`) yields `none`. -/
def extractChainContracts : ChainPayload → Option (List OptionContract)
  | { optionChain := none } => none
  | { optionChain := some none } => none
  | { optionChain := some (some []) } => none
  | { optionChain := some (some (entry :: _)) } =>
    match entry.options with
    | none => none
    | some blocks =>
      match blocks.head? with
      | none => none
      | some block => some (block.calls.getD [] ++ block.puts.getD [])

/-- `GET` for `/api/tsla-options` (src/unnamed/part_001, lines 419-512) as a
function of the cache lookup result, the already-resolved current price
(`getCurrentPrice` never throws: every provider failure is handled
internally), the chain fetch outcome and the clock.  Returns the response
together with the cache write performed on the success path (`key
'tsla-options-data'`, ttl 30 seconds); the cache-hit and catch branches write
nothing. -/
noncomputable def handleTslaOptionsGET (cachedData : Option ResponseData)
    (currentPrice : ℚ) (chain : FetchOutcome ChainPayload) (now : ℤ) :
    ApiResponse × Option ResponseData :=
  match cachedData with
  | some d => ({ success := true, data := d, cached := true }, none)
  | none =>
    match chain with
    | .thrown => (fallbackResponse now, none)
    | .ok payload =>
      match extractChainContracts payload with
      | none => (fallbackResponse now, none)
      | some allOptions =>
        let recommendations := findCreditSpreads allOptions currentPrice 7 now
        let responseData : ResponseData :=
          { currentPrice := currentPrice
            lastUpdate := now
            recommendations := recommendations }
        ({ success := true, data := responseData, cached := false },
          some responseData)

/-! ### TTL cache: `SimpleCache` (src/unnamed/part_006, lines 2-44) -/

/-- A stored cache entry `{ data, timestamp, ttl }`; `ttl` is in milliseconds
(`ttlSeconds * 1000`), `timestamp` is the `Date.now()` of the `set`. -/
structure CacheEntry (α : Type) where
  data : α
  timestamp : ℤ
  ttl : ℤ
deriving DecidableEq, Repr

/-- The cache's backing `Map<string, ...>`: an insertion-ordered association
list. -/
def CacheState (α : Type) : Type := List (String × CacheEntry α)

/-- `Map.get`. -/
def mapLookup {α : Type} : CacheState α → String → Option (CacheEntry α)
  | [], _ => none
  | (k, e) :: rest, key => if k = key then some e else mapLookup rest key

/-- `Map.set`: overwrite in place if the key exists, else append. -/
def mapSet {α : Type} : CacheState α → String → CacheEntry α → CacheState α
  | [], key, e => [(key, e)]
  | (k, e0) :: rest, key, e =>
    if k = key then (k, e) :: rest else (k, e0) :: mapSet rest key e

/-- `Map.delete`. -/
def mapDelete {α : Type} : CacheState α → String → CacheState α
  | [], _ => []
  | (k, e) :: rest, key => if k = key then rest else (k, e) :: mapDelete rest key

/-- `SimpleCache.set(key, data, ttlSeconds)` at time `now`: stores
`{ data, timestamp: Date.now(), ttl: ttlSeconds * 1000 }`. -/
def cacheSet {α : Type} (s : CacheState α) (key : String) (data : α)
    (ttlSeconds : ℤ) (now : ℤ) : CacheState α :=
  mapSet s key { data := data, timestamp := now, ttl := ttlSeconds * 1000 }

/-- `SimpleCache.get(key)` at time `now`: returns the stored value and the
resulting state.  A missing key returns `null`; an entry with
`now - timestamp > ttl` is deleted and `null` is returned; otherwise the data
is returned unchanged. -/
def cacheGet {α : Type} (s : CacheState α) (key : String) (now : ℤ) :
    Option α × CacheState α :=
  match mapLookup s key with
  | none => (none, s)
  | some item =>
    if now - item.timestamp > item.ttl then (none, mapDelete s key)
    else (some item.data, s)

/-- `SimpleCache.cleanup()` at time `now`: delete every entry with
`now - timestamp > ttl`. -/
def cacheCleanup {α : Type} (s : CacheState α) (now : ℤ) : CacheState α :=
  s.filter (fun kv => decide (¬ now - kv.2.timestamp > kv.2.ttl))

/-- The cache operations a concurrent caller may interleave between a `set`
and a later `get` (the operations named by the spec's cache API: further
`set`s, `get`s of any key, periodic `cleanup` sweeps), each tagged with the
`Date.now()` at which it runs. -/
inductive CacheOp (α : Type) where
  | set (key : String) (data : α) (ttlSeconds : ℤ) (now : ℤ)
  | get (key : String) (now : ℤ)
  | cleanup (now : ℤ)
deriving DecidableEq, Repr

def CacheOp.time {α : Type} : CacheOp α → ℤ
  | .set _ _ _ now => now
  | .get _ now => now
  | .cleanup now => now

/-- `op` is not a `set` of key `k`. -/
def CacheOp.notSetOf {α : Type} (k : String) : CacheOp α → Prop
  | .set key _ _ _ => key ≠ k
  | _ => True

/-- Execute one cache operation (the value returned by a `get` is discarded;
only its deletion side effect matters here). -/
def cacheStep {α : Type} (s : CacheState α) : CacheOp α → CacheState α
  | .set key data ttlSeconds now => cacheSet s key data ttlSeconds now
  | .get key now => (cacheGet s key now).2
  | .cleanup now => cacheCleanup s now

/-- Execute a sequence of cache operations in order. -/
def cacheRun {α : Type} (s : CacheState α) (ops : List (CacheOp α)) : CacheState α :=
  ops.foldl cacheStep s

/-! ### Broadcast hub: `WebSocketManager` (src/unnamed/part_006, lines 129-309) -/

/-- The three data topics (`DataType` in the source). -/
inductive Topic where
  | price
  | options
  | news
deriving DecidableEq, Repr

/-- Observable side effects of the manager: creating or clearing one of the
three `setInterval` timers, issuing a fetch for a topic's data, and
broadcasting a fetched value to a topic's subscribers. -/
inductive WSAction where
  | startTimer (t : Topic)
  | clearTimer (t : Topic)
  | fetch (t : Topic)
  | broadcast (t : Topic)
deriving DecidableEq, Repr

/-- Does the action deliver (or begin delivering) fresh data for a topic? -/
def WSAction.isRefresh : WSAction → Bool
  | .fetch _ => true
  | .broadcast _ => true
  | _ => false

/-- Manager state: per-topic subscriber sets (JavaScript `Set` iteration
order = insertion order, modelled as duplicate-free lists of callback
identifiers), whether the simulated socket is open (`this.ws` non-null with
`readyState OPEN`, i.e. the three interval timers exist), the `isConnecting`
flag, and the reconnection counter. -/
structure WSState where
  subscribers : Topic → List ℕ
  wsOpen : Bool
  isConnecting : Bool
  reconnectAttempts : ℕ

/-- The constructor state: the three subscriber sets exist and are empty. -/
def wsInit : WSState :=
  { subscribers := fun _ => [], wsOpen := false, isConnecting := false,
    reconnectAttempts := 0 }

/-- Pointwise update of the subscriber map. -/
def updateSubs (f : Topic → List ℕ) (t : Topic) (v : List ℕ) : Topic → List ℕ :=
  fun x => if x = t then v else f x

/-- `Set.add`: append if not already present. -/
def setAdd (l : List ℕ) (x : ℕ) : List ℕ :=
  if x ∈ l then l else l ++ [x]

/-- `Set.delete`: remove the element, keeping the order of the others. -/
def setDelete (l : List ℕ) (x : ℕ) : List ℕ :=
  l.filter (fun y => decide (y ≠ x))

/-- `getTotalSubscribers`: the sum of the three set sizes. -/
def totalSubscribers (s : WSState) : ℕ :=
  (s.subscribers Topic.price).length + (s.subscribers Topic.options).length +
    (s.subscribers Topic.news).length

/-- `connect` / `simulateWebSocket`: a no-op when already connecting or open;
otherwise starts the three polling intervals at once (price 5s, options 30s,
news 120s), stores the fake socket (making `wsOpen` true) and resets the
flags.  No fetch is issued here: the first refresh of each topic happens on
that topic's first timer tick. -/
def wsConnect (s : WSState) : WSState × List WSAction :=
  if s.isConnecting || s.wsOpen then (s, [])
  else
    ({ s with wsOpen := true, isConnecting := false, reconnectAttempts := 0 },
      [WSAction.startTimer Topic.price, WSAction.startTimer Topic.options,
        WSAction.startTimer Topic.news])

/-- `disconnect`: closing the fake socket clears the three intervals (only if
a socket exists); the flags are reset unconditionally. -/
def wsDisconnect (s : WSState) : WSState × List WSAction :=
  ({ s with wsOpen := false, isConnecting := false, reconnectAttempts := 0 },
    if s.wsOpen then
      [WSAction.clearTimer Topic.price, WSAction.clearTimer Topic.options,
        WSAction.clearTimer Topic.news]
    else [])

/-- `subscribe(type, callback)` (src/unnamed/part_006, lines 240-263): add
the callback to the topic's set, then `connect()` only when the total
subscriber count (across all topics) has just become 1. -/
def wsSubscribe (s : WSState) (t : Topic) (cb : ℕ) : WSState × List WSAction :=
  let s1 := { s with subscribers := updateSubs s.subscribers t (setAdd (s.subscribers t) cb) }
  if totalSubscribers s1 = 1 then wsConnect s1 else (s1, [])

/-- The unsubscribe closure returned by `subscribe`: delete the callback,
then `disconnect()` only when the total subscriber count has become 0. -/
def wsUnsubscribe (s : WSState) (t : Topic) (cb : ℕ) : WSState × List WSAction :=
  let s1 := { s with subscribers := updateSubs s.subscribers t (setDelete (s.subscribers t) cb) }
  if totalSubscribers s1 = 0 then wsDisconnect s1 else (s1, [])

/-- One tick of a topic's interval (the `setInterval` callbacks in
`simulateWebSocket`, lines 165-210): the tick does nothing unless the topic
currently has at least one subscriber; otherwise it fetches, and broadcasts
only if the fetch and JSON decode succeed with `result.success` true (a
failure is caught and logged; state is unchanged either way). -/
def wsTick (s : WSState) (t : Topic) (fetchOk : Bool) : List WSAction :=
  if (s.subscribers t).length > 0 then
    if fetchOk then [WSAction.fetch t, WSAction.broadcast t] else [WSAction.fetch t]
  else []

/-! ### `broadcast` delivery (src/unnamed/part_006, lines 227-238)

`broadcast` iterates the topic's subscriber set with `forEach`, invoking each
callback inside its own `try { callback(data) } catch { console.error(...) }`.
A callback is a function of the broadcast value that either returns or
throws; `Except Unit Unit` models that. -/

/-- A subscriber callback with an identity. -/
structure Subscriber (α : Type) where
  id : ℕ
  run : α → Except Unit Unit

/-- The `try { callback(data) } catch (error) { console.error(...) }` wrapper:
an exception thrown by the callback is swallowed. -/
def tryCatchLog (r : Except Unit Unit) : Except Unit Unit :=
  match r with
  | .ok u => .ok u
  | .error _ => .ok ()

/-- Deliver `data` to the subscriber list in order, in an exception monad:
an uncaught exception would abort the remaining iterations, but each
invocation is individually wrapped by `tryCatchLog`.  Returns the identities
of the callbacks that were invoked, in order. -/
def broadcastRun {α : Type} (subs : List (Subscriber α)) (data : α) :
    Except Unit (List ℕ) :=
  match subs with
  | [] => Except.ok []
  | cb :: rest => do
    let _ ← tryCatchLog (cb.run data)
    let tl ← broadcastRun rest data
    Except.ok (cb.id :: tl)

/-- `broadcast(type, data)`: deliver to every current subscriber; the
subscriber set itself is not modified by delivery. -/
def wsBroadcast {α : Type} (subs : List (Subscriber α)) (data : α) :
    Except Unit (List ℕ) × List (Subscriber α) :=
  (broadcastRun subs data, subs)

/-! ## Helper lemmas -/

theorem jsDivq_of_ne_zero {a b : ℚ} (hb : b ≠ 0) : jsDivq a b = JSq.num (a / b) := by
  simp [jsDivq, hb]

theorem JSq.leDesc_refl (x : JSq) : JSq.leDesc x x = true := by
  cases x <;> simp [JSq.leDesc]

theorem JSq.leDesc_trans (a b c : JSq) (hab : JSq.leDesc a b = true)
    (hbc : JSq.leDesc b c = true) : JSq.leDesc a c = true := by
  (cases a <;> cases b <;> cases c <;> simp_all [JSq.leDesc])
  linarith

theorem JSq.leDesc_total (a b : JSq) : (JSq.leDesc a b || JSq.leDesc b a) = true := by
  (cases a <;> cases b <;> simp [JSq.leDesc])
  exact le_total _ _

theorem recLeDesc_trans (a b c : CreditSpreadRecommendation)
    (hab : recLeDesc a b) (hbc : recLeDesc b c) : recLeDesc a c :=
  JSq.leDesc_trans _ _ _ hab hbc

theorem recLeDesc_total (a b : CreditSpreadRecommendation) :
    (recLeDesc a b || recLeDesc b a) = true :=
  JSq.leDesc_total _ _

theorem recLeDesc_of_ratio_eq {a b : CreditSpreadRecommendation}
    (h : a.riskRewardRatio = b.riskRewardRatio) : recLeDesc a b = true := by
  unfold recLeDesc
  rw [h]
  exact JSq.leDesc_refl _

/-- Every field-level fact carried by a call-side candidate accepted by
`mkCallSpread`. -/
theorem mkCallSpread_eq_some {cp : ℚ} {now : ℤ}
    {p : OptionContract × OptionContract} {r : CreditSpreadRecommendation}
    (h : mkCallSpread cp now p = some r) :
    r.type = SpreadType.call ∧
    r.shortStrike = p.1.strike ∧ r.longStrike = p.2.strike ∧
    r.shortStrike < r.longStrike ∧
    r.maxProfit = r.creditReceived ∧
    r.maxLoss = (r.longStrike - r.shortStrike) - r.creditReceived ∧
    r.breakeven = r.shortStrike + r.creditReceived ∧
    r.riskRewardRatio = jsDivq r.maxProfit r.maxLoss ∧
    (0.15 : ℚ) < r.creditReceived ∧
    JSq.gtqB r.riskRewardRatio (0.25 : ℚ) = true ∧
    5 ≤ r.daysToExpiration ∧ r.daysToExpiration ≤ 10 := by
  simp only [mkCallSpread] at h
  split at h
  · split at h
    · rename_i hgt hcond
      rw [Option.some.injEq] at h
      subst h
      simp only [Bool.and_eq_true, decide_eq_true_eq] at hcond
      obtain ⟨⟨⟨hc1, hc2⟩, hc3⟩, hc4⟩ := hcond
      exact ⟨rfl, rfl, rfl, hgt, rfl, rfl, rfl, rfl, hc1, hc2, hc3, hc4⟩
    · exact absurd h (by simp)
  · exact absurd h (by simp)

/-- Every field-level fact carried by a put-side candidate accepted by
`mkPutSpread`. -/
theorem mkPutSpread_eq_some {cp : ℚ} {now : ℤ}
    {p : OptionContract × OptionContract} {r : CreditSpreadRecommendation}
    (h : mkPutSpread cp now p = some r) :
    r.type = SpreadType.put ∧
    r.shortStrike = p.1.strike ∧ r.longStrike = p.2.strike ∧
    r.longStrike < r.shortStrike ∧
    r.maxProfit = r.creditReceived ∧
    r.maxLoss = (r.shortStrike - r.longStrike) - r.creditReceived ∧
    r.breakeven = r.shortStrike - r.creditReceived ∧
    r.riskRewardRatio = jsDivq r.maxProfit r.maxLoss ∧
    (0.15 : ℚ) < r.creditReceived ∧
    JSq.gtqB r.riskRewardRatio (0.25 : ℚ) = true ∧
    5 ≤ r.daysToExpiration ∧ r.daysToExpiration ≤ 10 := by
  simp only [mkPutSpread] at h
  split at h
  · split at h
    · rename_i hlt hcond
      rw [Option.some.injEq] at h
      subst h
      simp only [Bool.and_eq_true, decide_eq_true_eq] at hcond
      obtain ⟨⟨⟨hc1, hc2⟩, hc3⟩, hc4⟩ := hcond
      exact ⟨rfl, rfl, rfl, hlt, rfl, rfl, rfl, rfl, hc1, hc2, hc3, hc4⟩
    · exact absurd h (by simp)
  · exact absurd h (by simp)

/-- A recommendation returned by `findCreditSpreads` is one of the candidates
built by the two pairing loops. -/
theorem mem_of_mem_findCreditSpreads {options : List OptionContract}
    {currentPrice : ℚ} {targetDTE now : ℤ} {r : CreditSpreadRecommendation}
    (h : r ∈ findCreditSpreads options currentPrice targetDTE now) :
    r ∈ creditSpreadCandidates options currentPrice targetDTE now := by
  simp only [findCreditSpreads] at h
  exact List.mem_mergeSort.1 ((List.take_sublist 10 _).subset h)

/-- A candidate comes from the call-side loop or from the put-side loop. -/
theorem mem_candidates_cases {options : List OptionContract}
    {currentPrice : ℚ} {targetDTE now : ℤ} {r : CreditSpreadRecommendation}
    (h : r ∈ creditSpreadCandidates options currentPrice targetDTE now) :
    (∃ p, mkCallSpread currentPrice now p = some r) ∨
    (∃ p, mkPutSpread currentPrice now p = some r) := by
  simp only [creditSpreadCandidates, callSpreadCandidates, putSpreadCandidates,
    List.mem_append, List.mem_filterMap] at h
  rcases h with ⟨p, _, hp⟩ | ⟨p, _, hp⟩
  · exact Or.inl ⟨p, hp⟩
  · exact Or.inr ⟨p, hp⟩

/-! ## Claim C1 -/

/-- C1: every recommendation emitted by `findCreditSpreads`, from either
branch, satisfies `maxProfit = creditReceived`,
`maxLoss = |longStrike - shortStrike| - creditReceived`,
`riskRewardRatio = maxProfit / maxLoss` (as the JavaScript division; in
particular the finite quotient whenever `maxLoss` is nonzero), and
`breakeven = shortStrike + creditReceived` for call recommendations and
`shortStrike - creditReceived` for put recommendations. -/
theorem creditSpread_invariants (options : List OptionContract)
    (currentPrice : ℚ) (targetDTE now : ℤ) (r : CreditSpreadRecommendation)
    (h : r ∈ findCreditSpreads options currentPrice targetDTE now) :
    r.maxProfit = r.creditReceived ∧
    r.maxLoss = |r.longStrike - r.shortStrike| - r.creditReceived ∧
    r.riskRewardRatio = jsDivq r.maxProfit r.maxLoss ∧
    (r.maxLoss ≠ 0 → r.riskRewardRatio = JSq.num (r.maxProfit / r.maxLoss)) ∧
    (r.type = SpreadType.call → r.breakeven = r.shortStrike + r.creditReceived) ∧
    (r.type = SpreadType.put → r.breakeven = r.shortStrike - r.creditReceived) := by
  rcases mem_candidates_cases (mem_of_mem_findCreditSpreads h) with ⟨p, hp⟩ | ⟨p, hp⟩
  · obtain ⟨hty, _, _, hlt, hmp, hml, hbe, hrr, _, _, _, _⟩ := mkCallSpread_eq_some hp
    refine ⟨hmp, ?_, hrr, fun hz => ?_, fun _ => hbe, fun hput => ?_⟩
    · rw [hml, abs_of_pos (by linarith)]
    · rw [hrr, jsDivq_of_ne_zero hz]
    · rw [hty] at hput
      exact absurd hput (by simp)
  · obtain ⟨hty, _, _, hlt, hmp, hml, hbe, hrr, _, _, _, _⟩ := mkPutSpread_eq_some hp
    refine ⟨hmp, ?_, hrr, fun hz => ?_, fun hcall => ?_, fun _ => hbe⟩
    · rw [hml, abs_of_neg (by linarith)]
      ring
    · rw [hrr, jsDivq_of_ne_zero hz]
    · rw [hty] at hcall
      exact absurd hcall (by simp)

instance : Inhabited CreditSpreadRecommendation :=
  ⟨{ type := SpreadType.call, shortStrike := 0, longStrike := 0, expiration := "",
     creditReceived := 0, maxProfit := 0, maxLoss := 0, breakeven := 0,
     probOfProfit := JSR.nan, riskRewardRatio := JSq.nan, daysToExpiration := 0 }⟩

/-- The worked contract from spec section 8: strike 260, bid 1.50, ask 1.60,
7 days to expiration (expiration = 604800 unix seconds with `now = 0`),
out of the money. -/
def wCall260 : OptionContract :=
  { contractSymbol := "TSLA250108C00260000", strike := 260, expiration := 604800,
    bid := 1.5, ask := 1.6, lastPrice := 1.55, volume := 120, openInterest := 340,
    impliedVolatility := 0.3, inTheMoney := false }

/-- The worked contract from spec section 8: strike 265, bid 0.30, ask 0.40. -/
def wCall265 : OptionContract :=
  { contractSymbol := "TSLA250108C00265000", strike := 265, expiration := 604800,
    bid := 0.3, ask := 0.4, lastPrice := 0.35, volume := 80, openInterest := 210,
    impliedVolatility := 0.3, inTheMoney := false }

/-- The single candidate the pairing engine builds from
`[wCall260, wCall265]` at price 255, target DTE 7, `now = 0`. -/
noncomputable def wRecC1 : CreditSpreadRecommendation :=
  (creditSpreadCandidates [wCall260, wCall265] 255 7 0).headI

unseal Nat.gcd Rat.add Rat.sub Rat.mul Rat.inv Rat.ofScientific in
theorem wRecC1_candidates :
    creditSpreadCandidates [wCall260, wCall265] 255 7 0 = [wRecC1] := rfl

/-- C1 witness: the invariants instantiated on the concrete bear-call spread
built from the spec's worked example (credit 1.10, width 5, max loss 3.90). -/
theorem creditSpread_invariants_witness :
    wRecC1.maxProfit = wRecC1.creditReceived ∧
    wRecC1.maxLoss = |wRecC1.longStrike - wRecC1.shortStrike| - wRecC1.creditReceived ∧
    wRecC1.riskRewardRatio = jsDivq wRecC1.maxProfit wRecC1.maxLoss ∧
    (wRecC1.maxLoss ≠ 0 → wRecC1.riskRewardRatio = JSq.num (wRecC1.maxProfit / wRecC1.maxLoss)) ∧
    (wRecC1.type = SpreadType.call → wRecC1.breakeven = wRecC1.shortStrike + wRecC1.creditReceived) ∧
    (wRecC1.type = SpreadType.put → wRecC1.breakeven = wRecC1.shortStrike - wRecC1.creditReceived) :=
  creditSpread_invariants [wCall260, wCall265] 255 7 0 wRecC1 (by
    simp [findCreditSpreads, wRecC1_candidates])

/-! ## Claim C2 -/

theorem take10_singleton {α : Type} (a : α) : ([a].take 10) = [a] := rfl

/-- C2 (amended): every returned recommendation passed the filter
`creditReceived > 0.15 && maxProfit / maxLoss > 0.25 && 5 ≤ dte ≤ 10`, where
the ratio test uses JavaScript division (so negative, zero — when `maxLoss`
is nonzero — and `NaN` ratios are rejected, but a zero `maxLoss` with
positive credit passes as `Infinity`); the returned list is the first 10
elements of the stable descending sort of the pairing-stage candidates, hence
sorted descending by ratio, with equal-ratio candidates in pairing order, and
of length at most 10. -/
theorem findCreditSpreads_ranking (options : List OptionContract)
    (currentPrice : ℚ) (targetDTE now : ℤ) :
    (∀ r ∈ findCreditSpreads options currentPrice targetDTE now,
      (0.15 : ℚ) < r.creditReceived ∧
      JSq.gtqB r.riskRewardRatio (0.25 : ℚ) = true ∧
      5 ≤ r.daysToExpiration ∧ r.daysToExpiration ≤ 10) ∧
    findCreditSpreads options currentPrice targetDTE now =
      ((creditSpreadCandidates options currentPrice targetDTE now).mergeSort
        recLeDesc).take 10 ∧
    (findCreditSpreads options currentPrice targetDTE now).Pairwise
      (fun a b => recLeDesc a b = true) ∧
    (∀ a b : CreditSpreadRecommendation,
      [a, b].Sublist (creditSpreadCandidates options currentPrice targetDTE now) →
      a.riskRewardRatio = b.riskRewardRatio →
      [a, b].Sublist ((creditSpreadCandidates options currentPrice targetDTE now).mergeSort
        recLeDesc)) ∧
    (findCreditSpreads options currentPrice targetDTE now).length ≤ 10 := by
  refine ⟨?_, rfl, ?_, ?_, ?_⟩
  · intro r h
    rcases mem_candidates_cases (mem_of_mem_findCreditSpreads h) with ⟨p, hp⟩ | ⟨p, hp⟩
    · obtain ⟨_, _, _, _, _, _, _, _, hc1, hc2, hc3, hc4⟩ := mkCallSpread_eq_some hp
      exact ⟨hc1, hc2, hc3, hc4⟩
    · obtain ⟨_, _, _, _, _, _, _, _, hc1, hc2, hc3, hc4⟩ := mkPutSpread_eq_some hp
      exact ⟨hc1, hc2, hc3, hc4⟩
  · have hs := List.sorted_mergeSort recLeDesc_trans recLeDesc_total
      (creditSpreadCandidates options currentPrice targetDTE now)
    exact List.Pairwise.sublist (List.take_sublist 10 _) hs
  · intro a b hsub heq
    exact List.pair_sublist_mergeSort recLeDesc_trans recLeDesc_total
      (recLeDesc_of_ratio_eq heq) hsub
  · simp only [findCreditSpreads]
    exact List.length_take_le 10 _

/-- A malformed-but-possible quote: deep short call whose bid equals the full
spread width net of the long ask, so the credit equals the width and the max
loss is exactly zero. -/
def cexShort260 : OptionContract :=
  { contractSymbol := "TSLA250108C00260000", strike := 260, expiration := 604800,
    bid := 5.4, ask := 5.5, lastPrice := 5.45, volume := 10, openInterest := 25,
    impliedVolatility := 0.3, inTheMoney := false }

def cexLong265 : OptionContract :=
  { contractSymbol := "TSLA250108C00265000", strike := 265, expiration := 604800,
    bid := 0.3, ask := 0.4, lastPrice := 0.35, volume := 10, openInterest := 25,
    impliedVolatility := 0.3, inTheMoney := false }

unseal Nat.gcd Rat.add Rat.sub Rat.mul Rat.inv Rat.ofScientific List.merge List.mergeSort in
/-- C2 counterexample: with credit `5.4 - 0.4 = 5` on a 5-wide spread the max
loss is `0`, the JavaScript ratio `5 / 0` is `Infinity`, and the candidate is
*returned* — its undefined (infinite) risk/reward ratio is not rejected,
contradicting the claim that non-positive or undefined ratios are rejected. -/
theorem findCreditSpreads_infinite_ratio_counterexample :
    (findCreditSpreads [cexShort260, cexLong265] 255 7 0).map
      (fun r => r.riskRewardRatio) = [JSq.posInf] ∧
    (findCreditSpreads [cexShort260, cexLong265] 255 7 0).map
      (fun r => r.maxLoss) = [0] ∧
    (findCreditSpreads [cexShort260, cexLong265] 255 7 0).map
      (fun r => r.creditReceived) = [5] := by
  decide

/-- C2 witness: the filter facts instantiated on the concrete recommendation
built from the spec's worked example. -/
theorem findCreditSpreads_ranking_witness :
    (0.15 : ℚ) < wRecC1.creditReceived ∧
    JSq.gtqB wRecC1.riskRewardRatio (0.25 : ℚ) = true ∧
    5 ≤ wRecC1.daysToExpiration ∧ wRecC1.daysToExpiration ≤ 10 :=
  (findCreditSpreads_ranking [wCall260, wCall265] 255 7 0).1 wRecC1 (by
    simp [findCreditSpreads, wRecC1_candidates])

/-! ## Claims C3 and C4 -/

theorem JSR.mul_nan_right (a : JSR) : JSR.mul a JSR.nan = JSR.nan := by
  cases a <;> rfl

theorem JSR.mul_nan_left (a : JSR) : JSR.mul JSR.nan a = JSR.nan := by
  cases a <;> rfl

theorem JSR.add_nan_right (a : JSR) : JSR.add a JSR.nan = JSR.nan := by
  cases a <;> rfl

theorem JSR.sub_num_nan (x : ℝ) : JSR.sub (JSR.num x) JSR.nan = JSR.nan := rfl

theorem JSR.sub_nan_right (a : JSR) : JSR.sub a JSR.nan = JSR.nan := by
  cases a <;> rfl

/-- C3 (code bug): at the degenerate input `currentPrice = 250`,
`shortStrike = 250`, `creditReceived = 0`, call side, `impliedVol = 0`,
`daysToExp = 7`, the distance `d` is the JavaScript quotient `0 / 0 = NaN`,
the `NaN` propagates through every subsequent operation including
`Math.min(Math.max(·, 20), 85)`, and the function returns `NaN` — which lies
outside `[20, 85]`, contradicting both the claim and the source's own
`// Cap between 20-85%` comment. -/
theorem calculateProbOfProfit_nan_at_degenerate_input :
    calculateProbOfProfit 250 250 0 SpreadType.call 0 7 = JSR.nan ∧
    ¬ JSR.inRange 20 85 (calculateProbOfProfit 250 250 0 SpreadType.call 0 7) := by
  have h : calculateProbOfProfit 250 250 0 SpreadType.call 0 7 = JSR.nan := by
    norm_num [calculateProbOfProfit, JSR.div, JSR.log, JSR.mul, JSR.sqrtJ,
      JSR.signJ, JSR.expJ, JSR.add, JSR.neg, JSR.maxJ, JSR.minJ, JSR.ltP,
      JSR.gtP, JSR.mul_nan_right, JSR.mul_nan_left, JSR.add_nan_right,
      JSR.sub_nan_right, JSR.sub, Real.log_one, Real.sqrt_eq_zero]
  exact ⟨h, by rw [h]; exact fun hc => hc⟩

/-- C4: `calculateProbOfProfit` computes exactly the formula stated by the
spec (section 4.3): same breakeven, same standardized distance, same erf-free
cdf approximation, same per-type base probability, same time-decay and
moneyness bonuses, same `[20, 85]` clamp — at every input. -/
theorem calculateProbOfProfit_eq_spec (currentPrice shortStrike creditReceived : ℝ)
    (type : SpreadType) (impliedVol daysToExp : ℝ) :
    calculateProbOfProfit currentPrice shortStrike creditReceived type impliedVol daysToExp =
      probOfProfitSpec currentPrice shortStrike creditReceived type impliedVol daysToExp := rfl

/-! ## Claim C5 -/

theorem adjPairs_length {α : Type} : ∀ l : List α, (adjPairs l).length = l.length - 1
  | [] => rfl
  | [_] => rfl
  | a :: b :: rest => by
    simp only [adjPairs, List.length_cons, adjPairs_length (b :: rest)]
    omega

theorem targetOptionsOf_filter (options : List OptionContract) (targetDTE now : ℤ) :
    targetOptionsOf (options.filter (fun option =>
      decide (getDaysToExpiration option.expiration now ≥ targetDTE - 2) &&
      decide (getDaysToExpiration option.expiration now ≤ targetDTE + 2)))
      targetDTE now =
    targetOptionsOf options targetDTE now := by
  simp only [targetOptionsOf, List.filter_filter, Bool.and_self]

/-- C5 (amended): only contracts whose days-to-expiration lies in the
inclusive window `[target - 2, target + 2]` participate in pairing (filtering
the input to that window first does not change the result); pairing scans
adjacent pairs of each side's filtered list in *input order* (the source
performs no sort by strike), with a guard that keeps a call candidate only
when `longStrike > shortStrike` and a put candidate only when
`longStrike < shortStrike`; hence every emitted call candidate has
`longStrike > shortStrike`, every emitted put candidate has
`longStrike < shortStrike`, and each side contributes at most `n - 1`
candidates for `n` surviving contracts on that side. -/
theorem creditSpread_pairing (options : List OptionContract)
    (currentPrice : ℚ) (targetDTE now : ℤ) :
    (findCreditSpreads options currentPrice targetDTE now =
      findCreditSpreads (options.filter (fun option =>
        decide (getDaysToExpiration option.expiration now ≥ targetDTE - 2) &&
        decide (getDaysToExpiration option.expiration now ≤ targetDTE + 2)))
        currentPrice targetDTE now) ∧
    (∀ r ∈ findCreditSpreads options currentPrice targetDTE now,
      (r.type = SpreadType.call → r.shortStrike < r.longStrike) ∧
      (r.type = SpreadType.put → r.longStrike < r.shortStrike)) ∧
    (callSpreadCandidates options currentPrice targetDTE now).length ≤
      (callOptionsOf options currentPrice targetDTE now).length - 1 ∧
    (putSpreadCandidates options currentPrice targetDTE now).length ≤
      (putOptionsOf options currentPrice targetDTE now).length - 1 := by
  refine ⟨?_, ?_, ?_, ?_⟩
  · simp only [findCreditSpreads, creditSpreadCandidates, callSpreadCandidates,
      putSpreadCandidates, callOptionsOf, putOptionsOf, targetOptionsOf_filter]
  · intro r h
    rcases mem_candidates_cases (mem_of_mem_findCreditSpreads h) with ⟨p, hp⟩ | ⟨p, hp⟩
    · obtain ⟨hty, _, _, hlt, _⟩ := mkCallSpread_eq_some hp
      refine ⟨fun _ => hlt, fun hput => ?_⟩
      rw [hty] at hput
      exact absurd hput (by simp)
    · obtain ⟨hty, _, _, hlt, _⟩ := mkPutSpread_eq_some hp
      refine ⟨fun hcall => ?_, fun _ => hlt⟩
      rw [hty] at hcall
      exact absurd hcall (by simp)
  · exact le_trans (List.length_filterMap_le _ _) (le_of_eq (adjPairs_length _))
  · exact le_trans (List.length_filterMap_le _ _) (le_of_eq (adjPairs_length _))

unseal Nat.gcd Rat.add Rat.sub Rat.mul Rat.inv Rat.ofScientific List.merge List.mergeSort in
/-- C5 counterexample: the pairing engine is sensitive to the order of the
input list, which is impossible under the claim's "sort ascending by strike,
then pair adjacent contracts in sorted order" description.  Presenting the
same two qualifying call contracts in descending-strike order yields *no*
recommendation (the adjacent pair is `(265, 260)` and the `longStrike >
shortStrike` guard fails), while ascending order yields one. -/
theorem findCreditSpreads_order_dependent_counterexample :
    findCreditSpreads [wCall265, wCall260] 255 7 0 = [] ∧
    (findCreditSpreads [wCall260, wCall265] 255 7 0).length = 1 := ⟨rfl, rfl⟩

/-- C5 witness: the guard facts instantiated on the concrete recommendation
from the worked example. -/
theorem creditSpread_pairing_witness :
    (wRecC1.type = SpreadType.call → wRecC1.shortStrike < wRecC1.longStrike) ∧
    (wRecC1.type = SpreadType.put → wRecC1.longStrike < wRecC1.shortStrike) :=
  (creditSpread_pairing [wCall260, wCall265] 255 7 0).2.1 wRecC1 (by
    simp [findCreditSpreads, wRecC1_candidates])


/-! ## Claim C6 -/

/-- The real `Map` never holds two entries for one key; association-list
states with duplicate keys are model artifacts, excluded by this predicate. -/
def cacheKeysNodup {α : Type} (s : CacheState α) : Prop :=
  (s.map Prod.fst).Nodup

theorem mapLookup_mapSet_self {α : Type} (s : CacheState α) (k : String)
    (e : CacheEntry α) : mapLookup (mapSet s k e) k = some e := by
  induction s with
  | nil => simp [mapSet, mapLookup]
  | cons kv rest ih =>
    by_cases h : kv.1 = k
    · simp [mapSet, mapLookup, h]
    · simp [mapSet, mapLookup, h, ih]

theorem mapLookup_mapSet_ne {α : Type} {k2 k : String} (h : k2 ≠ k)
    (s : CacheState α) (e : CacheEntry α) :
    mapLookup (mapSet s k2 e) k = mapLookup s k := by
  induction s with
  | nil => simp [mapSet, mapLookup, h]
  | cons kv rest ih =>
    by_cases h1 : kv.1 = k2
    · simp [mapSet, mapLookup, h1, h, Ne.symm h]
    · by_cases h2 : kv.1 = k <;> simp [mapSet, mapLookup, h1, h2, ih, Ne.symm h]

theorem mapLookup_mapDelete_ne {α : Type} {k2 k : String} (h : k2 ≠ k)
    (s : CacheState α) : mapLookup (mapDelete s k2) k = mapLookup s k := by
  induction s with
  | nil => simp [mapDelete, mapLookup]
  | cons kv rest ih =>
    by_cases h1 : kv.1 = k2
    · simp [mapDelete, mapLookup, h1, h]
    · by_cases h2 : kv.1 = k <;> simp [mapDelete, mapLookup, h1, h2, Ne.symm h, ih]

theorem mapDelete_of_lookup_none {α : Type} {s : CacheState α} {k : String}
    (h : mapLookup s k = none) : mapDelete s k = s := by
  induction s with
  | nil => rfl
  | cons kv rest ih =>
    by_cases h1 : kv.1 = k
    · simp [mapLookup, h1] at h
    · simp only [mapLookup, h1, if_neg, not_false_iff] at h
      simp [mapDelete, h1, ih h]

theorem mapLookup_eq_none_of_not_mem {α : Type} {s : CacheState α} {k : String}
    (h : k ∉ s.map Prod.fst) : mapLookup s k = none := by
  induction s with
  | nil => rfl
  | cons kv rest ih =>
    simp only [List.map_cons, List.mem_cons, not_or] at h
    have h1 : kv.1 ≠ k := fun he => h.1 he.symm
    simp [mapLookup, h1, ih h.2]

theorem mapLookup_mapDelete_self_of_nodup {α : Type} {s : CacheState α}
    {k : String} (hnd : cacheKeysNodup s) :
    mapLookup (mapDelete s k) k = none := by
  induction s with
  | nil => rfl
  | cons kv rest ih =>
    simp only [cacheKeysNodup, List.map_cons, List.nodup_cons] at hnd
    by_cases h1 : kv.1 = k
    · simp only [mapDelete, h1, if_pos]
      exact mapLookup_eq_none_of_not_mem (h1 ▸ hnd.1)
    · simp [mapDelete, mapLookup, h1, ih hnd.2]

theorem mapDelete_sublist {α : Type} (s : CacheState α) (k : String) :
    (mapDelete s k).Sublist s := by
  induction s with
  | nil => simp [mapDelete]
  | cons kv rest ih =>
    by_cases h1 : kv.1 = k
    · simp only [mapDelete, h1, if_pos]
      exact List.sublist_cons_self kv rest
    · simp only [mapDelete, h1, if_neg, not_false_iff]
      exact ih.cons₂ kv

theorem mapLookup_cleanup_fresh {α : Type} {s : CacheState α} {k : String}
    {e : CacheEntry α} {now : ℤ} (h : mapLookup s k = some e)
    (hf : ¬ now - e.timestamp > e.ttl) :
    mapLookup (cacheCleanup s now) k = some e := by
  induction s with
  | nil => simp [mapLookup] at h
  | cons kv rest ih =>
    have hcc : cacheCleanup (kv :: rest) now =
        if (decide (¬(now - kv.2.timestamp > kv.2.ttl))) = true
        then kv :: cacheCleanup rest now else cacheCleanup rest now := by
      simp only [cacheCleanup, List.filter_cons]
    by_cases h1 : kv.1 = k
    · simp only [mapLookup, h1, if_pos, Option.some.injEq] at h
      have hfkv : ¬ now - kv.2.timestamp > kv.2.ttl := by rw [h]; exact hf
      rw [hcc, if_pos (decide_eq_true hfkv)]
      simp [mapLookup, h1, h]
    · simp only [mapLookup, h1, if_neg, not_false_iff] at h
      rw [hcc]
      by_cases h2 : now - kv.2.timestamp > kv.2.ttl
      · rw [if_neg (by simp [h2])]
        exact ih h
      · rw [if_pos (decide_eq_true h2)]
        simp only [mapLookup, h1, if_neg, not_false_iff]
        exact ih h

theorem mapLookup_cleanup_none {α : Type} {s : CacheState α} {k : String}
    {now : ℤ} (h : mapLookup s k = none) :
    mapLookup (cacheCleanup s now) k = none := by
  induction s with
  | nil => rfl
  | cons kv rest ih =>
    have hcc : cacheCleanup (kv :: rest) now =
        if (decide (¬(now - kv.2.timestamp > kv.2.ttl))) = true
        then kv :: cacheCleanup rest now else cacheCleanup rest now := by
      simp only [cacheCleanup, List.filter_cons]
    by_cases h1 : kv.1 = k
    · simp [mapLookup, h1] at h
    · simp only [mapLookup, h1, if_neg, not_false_iff] at h
      rw [hcc]
      by_cases h2 : now - kv.2.timestamp > kv.2.ttl
      · rw [if_neg (by simp [h2])]
        exact ih h
      · rw [if_pos (decide_eq_true h2)]
        simp only [mapLookup, h1, if_neg, not_false_iff]
        exact ih h

theorem mapLookup_cleanup_expired_of_nodup {α : Type} {s : CacheState α}
    {k : String} {e : CacheEntry α} {now : ℤ} (hnd : cacheKeysNodup s)
    (h : mapLookup s k = some e) (hx : now - e.timestamp > e.ttl) :
    mapLookup (cacheCleanup s now) k = none := by
  induction s with
  | nil => simp [mapLookup] at h
  | cons kv rest ih =>
    simp only [cacheKeysNodup, List.map_cons, List.nodup_cons] at hnd
    have hcc : cacheCleanup (kv :: rest) now =
        if (decide (¬(now - kv.2.timestamp > kv.2.ttl))) = true
        then kv :: cacheCleanup rest now else cacheCleanup rest now := by
      simp only [cacheCleanup, List.filter_cons]
    by_cases h1 : kv.1 = k
    · simp only [mapLookup, h1, if_pos, Option.some.injEq] at h
      have hxkv : now - kv.2.timestamp > kv.2.ttl := by rw [h]; exact hx
      rw [hcc, if_neg (by simp [hxkv])]
      exact mapLookup_cleanup_none (mapLookup_eq_none_of_not_mem (h1 ▸ hnd.1))
    · simp only [mapLookup, h1, if_neg, not_false_iff] at h
      rw [hcc]
      by_cases h2 : now - kv.2.timestamp > kv.2.ttl
      · rw [if_neg (by simp [h2])]
        exact ih hnd.2 h
      · rw [if_pos (decide_eq_true h2)]
        simp only [mapLookup, h1, if_neg, not_false_iff]
        exact ih hnd.2 h

theorem mem_keys_mapSet {α : Type} {s : CacheState α} {k x : String}
    {e : CacheEntry α} (h : x ∈ (mapSet s k e).map Prod.fst) :
    x = k ∨ x ∈ s.map Prod.fst := by
  induction s with
  | nil => simpa [mapSet] using h
  | cons kv rest ih =>
    by_cases h1 : kv.1 = k
    · simp only [mapSet] at h
      rw [if_pos h1] at h
      simp only [List.map_cons, List.mem_cons] at h
      rcases h with h | h
      · exact Or.inl (h.trans h1)
      · exact Or.inr (by simp [h])
    · simp only [mapSet, h1, if_neg, not_false_iff, List.map_cons, List.mem_cons] at h
      rcases h with h | h
      · exact Or.inr (by simp [h])
      · exact (ih h).imp id (fun hm => by simp [hm])

theorem cacheKeysNodup_mapSet {α : Type} {s : CacheState α}
    (hnd : cacheKeysNodup s) (k : String) (e : CacheEntry α) :
    cacheKeysNodup (mapSet s k e) := by
  induction s with
  | nil => simp [mapSet, cacheKeysNodup]
  | cons kv rest ih =>
    simp only [cacheKeysNodup, List.map_cons, List.nodup_cons] at hnd
    by_cases h1 : kv.1 = k
    · simp only [cacheKeysNodup, mapSet, h1, if_pos, List.map_cons, List.nodup_cons]
      exact ⟨h1 ▸ hnd.1, hnd.2⟩
    · simp only [cacheKeysNodup, mapSet, h1, if_neg, not_false_iff,
        List.map_cons, List.nodup_cons]
      refine ⟨fun hm => ?_, ih hnd.2⟩
      rcases mem_keys_mapSet hm with hk | hk
      · exact h1 hk
      · exact hnd.1 hk

theorem cacheKeysNodup_mapDelete {α : Type} {s : CacheState α}
    (hnd : cacheKeysNodup s) (k : String) : cacheKeysNodup (mapDelete s k) :=
  List.Nodup.sublist (List.Sublist.map Prod.fst (mapDelete_sublist s k)) hnd

theorem cacheKeysNodup_cleanup {α : Type} {s : CacheState α}
    (hnd : cacheKeysNodup s) (now : ℤ) : cacheKeysNodup (cacheCleanup s now) :=
  List.Nodup.sublist (List.Sublist.map Prod.fst (List.filter_sublist s)) hnd

theorem cacheStep_keysNodup {α : Type} {s : CacheState α} (op : CacheOp α)
    (hnd : cacheKeysNodup s) : cacheKeysNodup (cacheStep s op) := by
  cases op with
  | set key data ttl now => exact cacheKeysNodup_mapSet hnd key _
  | get key now =>
    cases hl : mapLookup s key with
    | none =>
      simp only [cacheStep, cacheGet, hl]
      exact hnd
    | some item =>
      simp only [cacheStep, cacheGet, hl]
      split
      · exact cacheKeysNodup_mapDelete hnd key
      · exact hnd
  | cleanup now => exact cacheKeysNodup_cleanup hnd now

theorem cacheRun_keysNodup {α : Type} (ops : List (CacheOp α)) :
    ∀ s : CacheState α, cacheKeysNodup s → cacheKeysNodup (cacheRun s ops) := by
  induction ops with
  | nil => exact fun s h => h
  | cons op rest ih =>
    intro s h
    exact ih (cacheStep s op) (cacheStep_keysNodup op h)

theorem cacheStep_lookup_fresh {α : Type} {s : CacheState α} {k : String}
    {e : CacheEntry α} (op : CacheOp α) (hop : op.notSetOf k)
    (hfresh : op.time - e.timestamp ≤ e.ttl) (h : mapLookup s k = some e) :
    mapLookup (cacheStep s op) k = some e := by
  cases op with
  | set key data ttl now =>
    simp only [CacheOp.notSetOf] at hop
    exact (mapLookup_mapSet_ne hop s _).trans h
  | get key now =>
    simp only [CacheOp.time] at hfresh
    by_cases hk : key = k
    · subst hk
      simp only [cacheStep, cacheGet, h]
      rw [if_neg (not_lt.mpr hfresh)]
      exact h
    · cases hl : mapLookup s key with
      | none =>
        simp only [cacheStep, cacheGet, hl]
        exact h
      | some item =>
        simp only [cacheStep, cacheGet, hl]
        split
        · exact (mapLookup_mapDelete_ne hk s).trans h
        · exact h
  | cleanup now =>
    simp only [CacheOp.time] at hfresh
    exact mapLookup_cleanup_fresh h (not_lt.mpr hfresh)

theorem cacheRun_lookup_fresh {α : Type} {k : String} {e : CacheEntry α}
    (ops : List (CacheOp α)) :
    ∀ s : CacheState α,
      (∀ op ∈ ops, CacheOp.notSetOf k op ∧ op.time - e.timestamp ≤ e.ttl) →
      mapLookup s k = some e → mapLookup (cacheRun s ops) k = some e := by
  induction ops with
  | nil => exact fun s _ h => h
  | cons op rest ih =>
    intro s hops h
    have h1 := hops op (List.mem_cons_self _ _)
    exact ih (cacheStep s op)
      (fun o ho => hops o (List.mem_cons_of_mem _ ho))
      (cacheStep_lookup_fresh op h1.1 h1.2 h)

theorem cacheStep_lookup_disj {α : Type} {s : CacheState α} {k : String}
    {e : CacheEntry α} (op : CacheOp α) (hop : op.notSetOf k)
    (hnd : cacheKeysNodup s)
    (h : mapLookup s k = some e ∨ mapLookup s k = none) :
    mapLookup (cacheStep s op) k = some e ∨
      mapLookup (cacheStep s op) k = none := by
  cases op with
  | set key data ttl now =>
    simp only [CacheOp.notSetOf] at hop
    rcases h with h | h
    · exact Or.inl ((mapLookup_mapSet_ne hop s _).trans h)
    · exact Or.inr ((mapLookup_mapSet_ne hop s _).trans h)
  | get key now =>
    by_cases hk : key = k
    · subst hk
      rcases h with h | h
      · simp only [cacheStep, cacheGet, h]
        by_cases hx : now - e.timestamp > e.ttl
        · rw [if_pos hx]
          exact Or.inr (mapLookup_mapDelete_self_of_nodup hnd)
        · rw [if_neg hx]
          exact Or.inl h
      · simp [cacheStep, cacheGet, h]
    · cases hl : mapLookup s key with
      | none =>
        simp only [cacheStep, cacheGet, hl]
        exact h
      | some item =>
        simp only [cacheStep, cacheGet, hl]
        split
        · rcases h with h | h
          · exact Or.inl ((mapLookup_mapDelete_ne hk s).trans h)
          · exact Or.inr ((mapLookup_mapDelete_ne hk s).trans h)
        · exact h
  | cleanup now =>
    rcases h with h | h
    · by_cases hx : now - e.timestamp > e.ttl
      · exact Or.inr (mapLookup_cleanup_expired_of_nodup hnd h hx)
      · exact Or.inl (mapLookup_cleanup_fresh h hx)
    · exact Or.inr (mapLookup_cleanup_none h)

theorem cacheRun_lookup_disj {α : Type} {k : String} {e : CacheEntry α}
    (ops : List (CacheOp α)) :
    ∀ s : CacheState α, (∀ op ∈ ops, CacheOp.notSetOf k op) →
      cacheKeysNodup s →
      (mapLookup s k = some e ∨ mapLookup s k = none) →
      (mapLookup (cacheRun s ops) k = some e ∨
        mapLookup (cacheRun s ops) k = none) := by
  induction ops with
  | nil => exact fun s _ _ h => h
  | cons op rest ih =>
    intro s hops hnd h
    exact ih (cacheStep s op)
      (fun o ho => hops o (List.mem_cons_of_mem _ ho))
      (cacheStep_keysNodup op hnd)
      (cacheStep_lookup_disj op (hops op (List.mem_cons_self _ _)) hnd h)

/-- C6: after `set(k, v, ttl)` at time `t`, with any interleaving of cache
operations that never `set` key `k` (other `set`s, `get`s of any key,
`cleanup` sweeps) at times within `[t, t']`, a `get(k)` at `t'` returns `v`
when `t' - t ≤ ttl` (in stored milliseconds, `ttlSeconds * 1000`) and leaves
the state unchanged; when `t' - t > ttl` it returns absent and the entry for
`k` is gone from the resulting state.  Moreover — third conjunct — *no* `get`
on *any* reachable state ever returns a value whose ttl has elapsed,
regardless of whether `cleanup` has run: `get` itself re-checks. -/
theorem cache_ttl_roundtrip {α : Type} (s0 : CacheState α) (k : String) (v : α)
    (ttlSeconds t : ℤ) (ops : List (CacheOp α)) (tq : ℤ)
    (hnd : cacheKeysNodup s0)
    (hset : ∀ op ∈ ops, CacheOp.notSetOf k op)
    (htimes : ∀ op ∈ ops, t ≤ CacheOp.time op ∧ CacheOp.time op ≤ tq) :
    (tq - t ≤ ttlSeconds * 1000 →
      cacheGet (cacheRun (cacheSet s0 k v ttlSeconds t) ops) k tq =
        (some v, cacheRun (cacheSet s0 k v ttlSeconds t) ops)) ∧
    (tq - t > ttlSeconds * 1000 →
      (cacheGet (cacheRun (cacheSet s0 k v ttlSeconds t) ops) k tq).1 = none ∧
      mapLookup (cacheGet (cacheRun (cacheSet s0 k v ttlSeconds t) ops) k tq).2 k =
        none) ∧
    (∀ (s : CacheState α) (k2 : String) (u : ℤ) (v2 : α),
      (cacheGet s k2 u).1 = some v2 →
      ∃ e : CacheEntry α,
        mapLookup s k2 = some e ∧ u - e.timestamp ≤ e.ttl ∧ e.data = v2) := by
  have h0 : mapLookup (cacheSet s0 k v ttlSeconds t) k =
      some { data := v, timestamp := t, ttl := ttlSeconds * 1000 } := by
    simp only [cacheSet]
    exact mapLookup_mapSet_self s0 k _
  have hnd0 : cacheKeysNodup (cacheSet s0 k v ttlSeconds t) :=
    cacheKeysNodup_mapSet hnd k _
  have hnd1 : cacheKeysNodup (cacheRun (cacheSet s0 k v ttlSeconds t) ops) :=
    cacheRun_keysNodup ops _ hnd0
  refine ⟨fun h1 => ?_, fun h1 => ?_, ?_⟩
  · have hlook := cacheRun_lookup_fresh ops (cacheSet s0 k v ttlSeconds t)
      (fun op hop => ⟨hset op hop, by
        have := htimes op hop
        show CacheOp.time op - t ≤ ttlSeconds * 1000
        omega⟩) h0
    simp only [cacheGet, hlook]
    rw [if_neg (show ¬ tq - t > ttlSeconds * 1000 by omega)]
  · rcases cacheRun_lookup_disj ops (cacheSet s0 k v ttlSeconds t) hset hnd0
        (Or.inl h0) with hlook | hlook
    · have hget : cacheGet (cacheRun (cacheSet s0 k v ttlSeconds t) ops) k tq =
          (none, mapDelete (cacheRun (cacheSet s0 k v ttlSeconds t) ops) k) := by
        simp only [cacheGet, hlook]
        rw [if_pos (show tq - t > ttlSeconds * 1000 from h1)]
      rw [hget]
      exact ⟨rfl, mapLookup_mapDelete_self_of_nodup hnd1⟩
    · have hget : cacheGet (cacheRun (cacheSet s0 k v ttlSeconds t) ops) k tq =
          (none, cacheRun (cacheSet s0 k v ttlSeconds t) ops) := by
        simp only [cacheGet, hlook]
      rw [hget]
      exact ⟨rfl, hlook⟩
  · intro s k2 u v2 h
    cases hl : mapLookup s k2 with
    | none => simp [cacheGet, hl] at h
    | some item =>
      simp only [cacheGet, hl] at h
      by_cases hx : u - item.timestamp > item.ttl
      · rw [if_pos hx] at h
        simp at h
      · rw [if_neg hx] at h
        simp only [Option.some.injEq] at h
        exact ⟨item, rfl, not_lt.mp hx, h⟩

instance {α : Type} (k : String) (op : CacheOp α) :
    Decidable (CacheOp.notSetOf k op) :=
  match op with
  | .set key _ _ _ => inferInstanceAs (Decidable (key ≠ k))
  | .get _ _ => inferInstanceAs (Decidable True)
  | .cleanup _ => inferInstanceAs (Decidable True)

/-- C6 witness: a concrete round trip with interleaved foreign operations
(a read of another key, a sweep, a write to another key) between the `set`
and a boundary-time `get`. -/
theorem cache_ttl_roundtrip_witness :
    cacheGet (cacheRun (cacheSet ([] : CacheState ℕ) "tsla-options-data" 1 30 0)
        [CacheOp.get "market-news-data" 10, CacheOp.cleanup 20,
          CacheOp.set "market-news-data" 2 60 25])
      "tsla-options-data" 30000 =
    (some 1, cacheRun (cacheSet ([] : CacheState ℕ) "tsla-options-data" 1 30 0)
        [CacheOp.get "market-news-data" 10, CacheOp.cleanup 20,
          CacheOp.set "market-news-data" 2 60 25]) :=
  (cache_ttl_roundtrip [] "tsla-options-data" 1 30 0
    [CacheOp.get "market-news-data" 10, CacheOp.cleanup 20,
      CacheOp.set "market-news-data" 2 60 25] 30000
    (by simp [cacheKeysNodup]) (by decide) (by decide)).1 (by decide)

/-! ## Claim C7 -/

/-- C7 counterexample: subscribing to an idle topic triggers no immediate
refresh at all (the first subscriber of the whole manager starts the three
interval timers of `simulateWebSocket` — not one timer for its topic — and no
fetch), and subscribing to an idle topic while another topic is already
active starts no timer whatsoever. -/
theorem wsSubscribe_counterexample :
    ((wsSubscribe wsInit Topic.news 0).2.filter WSAction.isRefresh = []) ∧
    ((wsSubscribe wsInit Topic.news 0).2 =
      [WSAction.startTimer Topic.price, WSAction.startTimer Topic.options,
        WSAction.startTimer Topic.news]) ∧
    ((wsSubscribe wsInit Topic.price 0).1.subscribers Topic.news = []) ∧
    ((wsSubscribe (wsSubscribe wsInit Topic.price 0).1 Topic.news 1).2 = []) := by
  decide

/-- C7 (amended): `subscribe` never triggers an immediate refresh; it starts
the three per-topic interval timers, all at once, exactly when the *total*
subscriber count (across topics) becomes 1 with no connection open or in
progress, and otherwise starts nothing; a topic tick refreshes only while
that topic has at least one subscriber (so after the last unsubscribe for a
topic, no further refreshes occur for it); and when the total count drops to
0 while the simulated socket is open, all three timers are cleared. -/
theorem wsHub_lifecycle (s : WSState) (t : Topic) (cb : ℕ) (ok : Bool) :
    ((wsSubscribe s t cb).2.filter WSAction.isRefresh = []) ∧
    ((wsSubscribe s t cb).2 =
      if totalSubscribers (wsSubscribe s t cb).1 = 1 ∧
          s.isConnecting = false ∧ s.wsOpen = false
      then [WSAction.startTimer Topic.price, WSAction.startTimer Topic.options,
        WSAction.startTimer Topic.news]
      else []) ∧
    (s.subscribers t = [] → wsTick s t ok = []) ∧
    (totalSubscribers (wsUnsubscribe s t cb).1 = 0 → s.wsOpen = true →
      (wsUnsubscribe s t cb).2 =
        [WSAction.clearTimer Topic.price, WSAction.clearTimer Topic.options,
          WSAction.clearTimer Topic.news]) ∧
    (totalSubscribers (wsUnsubscribe s t cb).1 ≠ 0 →
      (wsUnsubscribe s t cb).2 = []) := by
  refine ⟨?_, ?_, ?_, ?_, ?_⟩
  · by_cases h1 : totalSubscribers
        { s with subscribers := updateSubs s.subscribers t (setAdd (s.subscribers t) cb) } = 1
    · by_cases h2 : s.isConnecting || s.wsOpen <;>
        simp [wsSubscribe, wsConnect, h1, h2, WSAction.isRefresh]
    · simp [wsSubscribe, h1]
  · by_cases h1 : totalSubscribers
        { s with subscribers := updateSubs s.subscribers t (setAdd (s.subscribers t) cb) } = 1
    · have h1q := h1
      simp only [totalSubscribers] at h1q
      by_cases h2 : s.isConnecting
      · simp [wsSubscribe, wsConnect, totalSubscribers, h1, h1q, h2]
      · by_cases h3 : s.wsOpen <;>
          simp [wsSubscribe, wsConnect, totalSubscribers, h1, h1q, h2, h3]
    · have h1q := h1
      simp only [totalSubscribers] at h1q
      simp [wsSubscribe, totalSubscribers, h1, h1q]
  · intro h
    simp [wsTick, h]
  · intro h hopen
    by_cases h0 : totalSubscribers
        { s with subscribers := updateSubs s.subscribers t (setDelete (s.subscribers t) cb) } = 0
    · have h0q := h0
      simp only [totalSubscribers] at h0q
      simp [wsUnsubscribe, wsDisconnect, totalSubscribers, h0, h0q, hopen]
    · exfalso
      apply h0
      simp only [wsUnsubscribe, h0, if_neg, if_false] at h
  · intro h
    by_cases h0 : totalSubscribers
        { s with subscribers := updateSubs s.subscribers t (setDelete (s.subscribers t) cb) } = 0
    · exfalso
      apply h
      have h0q := h0
      simp only [totalSubscribers] at h0q
      simp [wsUnsubscribe, wsDisconnect, totalSubscribers, h0, h0q]
    · simp [wsUnsubscribe, h0]

/-- C7 witness: a tick of the untouched `news` topic does nothing, and the
single subscriber of `price` unsubscribing clears all three timers. -/
theorem wsHub_lifecycle_witness :
    wsTick wsInit Topic.news true = [] ∧
    (wsUnsubscribe (wsSubscribe wsInit Topic.price 0).1 Topic.price 0).2 =
      [WSAction.clearTimer Topic.price, WSAction.clearTimer Topic.options,
        WSAction.clearTimer Topic.news] :=
  ⟨(wsHub_lifecycle wsInit Topic.news 0 true).2.2.1 rfl,
    (wsHub_lifecycle (wsSubscribe wsInit Topic.price 0).1 Topic.price 0 true).2.2.2.1
      (by decide) (by decide)⟩

/-! ## Claim C8 -/

/-- The chain-lookup outcomes that make the handler's `try` block throw:
the fetch/decode itself throws, or the payload is structurally
empty/malformed (missing `optionChain`, missing or empty `result`, missing
`result[0].options`, or an empty `options` array). -/
def chainBad : FetchOutcome ChainPayload → Prop
  | .thrown => True
  | .ok payload => extractChainContracts payload = none

/-- C8: on a cache miss, whenever the option-chain lookup throws or returns
structurally empty/malformed data, the handler returns the static fallback
response — `success: true` with the non-empty mock recommendation set — and
writes nothing to the cache; moreover (last conjunct) *every* response of the
handler, on every path, carries `success: true`: no error response or
unhandled failure is ever propagated. -/
theorem tslaOptionsGET_fallback (price : ℚ) (chain : FetchOutcome ChainPayload)
    (now : ℤ) (hbad : chainBad chain) :
    handleTslaOptionsGET none price chain now = (fallbackResponse now, none) ∧
    (fallbackResponse now).success = true ∧
    (fallbackResponse now).data.recommendations ≠ [] ∧
    (∀ (cached : Option ResponseData) (p : ℚ) (c : FetchOutcome ChainPayload)
      (n : ℤ), (handleTslaOptionsGET cached p c n).1.success = true) := by
  refine ⟨?_, rfl, by simp [fallbackResponse, mockRecommendations], ?_⟩
  · cases chain with
    | thrown => rfl
    | ok payload =>
      simp only [chainBad] at hbad
      simp [handleTslaOptionsGET, hbad]
  · intro cached p c n
    cases cached with
    | some d => rfl
    | none =>
      cases c with
      | thrown => rfl
      | ok payload =>
        cases hx : extractChainContracts payload with
        | none => simp [handleTslaOptionsGET, hx, fallbackResponse]
        | some opts => simp [handleTslaOptionsGET, hx]

/-- C8 witness: the fallback facts instantiated at a thrown chain fetch. -/
theorem tslaOptionsGET_fallback_witness :
    handleTslaOptionsGET none 250 FetchOutcome.thrown 0 = (fallbackResponse 0, none) ∧
    (fallbackResponse 0).success = true ∧
    (fallbackResponse 0).data.recommendations ≠ [] ∧
    (∀ (cached : Option ResponseData) (p : ℚ) (c : FetchOutcome ChainPayload)
      (n : ℤ), (handleTslaOptionsGET cached p c n).1.success = true) :=
  tslaOptionsGET_fallback 250 FetchOutcome.thrown 0 True.intro

/-! ## Claim C9 -/

/-- A run in which Yahoo reports a *negative* regular market price and the
other providers are unavailable. -/
def negPriceEnv : PriceEnv :=
  { yahoo := FetchOutcome.ok { regularMarketPrice := some (-5) },
    alphaKeySet := false, alpha := FetchOutcome.thrown,
    fmpKeySet := false, fmp := FetchOutcome.thrown }

unseal Rat.add Rat.sub Rat.mul Rat.inv Rat.ofScientific in
/-- C9 counterexample: the Yahoo branch tests only JavaScript truthiness of
`regularMarketPrice`, so a nonzero *negative* price is returned as-is.  Under
the claim ("first provider yielding a well-formed positive numeric price
wins; if none, 250") this run — where no provider yields a positive price —
would have to return 250; the code returns -5. -/
theorem getCurrentPrice_negative_counterexample :
    getCurrentPrice negPriceEnv = -5 ∧ ¬ (0 : ℚ) < -5 ∧ (-5 : ℚ) ≠ 250 := by
  decide

/-- C9 (amended): providers are attempted in priority order — Yahoo, Alpha
Vantage (only with a configured key), FMP (only with a configured key) — and
the first branch whose extracted field is *truthy* wins (for the numeric
fields: present and nonzero, of either sign; for Alpha Vantage's price
string: present); when every branch declines, the fixed fallback 250 is
returned.  The model is a total function: no provider failure surfaces as an
error. -/
theorem getCurrentPrice_provider_order (env : PriceEnv) :
    (∀ p, yahooBranchPrice env.yahoo = some p → getCurrentPrice env = p) ∧
    (yahooBranchPrice env.yahoo = none →
      ∀ p, alphaBranchPrice env.alphaKeySet env.alpha = some p →
        getCurrentPrice env = p) ∧
    (yahooBranchPrice env.yahoo = none →
      alphaBranchPrice env.alphaKeySet env.alpha = none →
      ∀ p, fmpBranchPrice env.fmpKeySet env.fmp = some p →
        getCurrentPrice env = p) ∧
    (yahooBranchPrice env.yahoo = none →
      alphaBranchPrice env.alphaKeySet env.alpha = none →
      fmpBranchPrice env.fmpKeySet env.fmp = none →
      getCurrentPrice env = 250) := by
  refine ⟨?_, ?_, ?_, ?_⟩
  · intro p hp
    simp [getCurrentPrice, hp]
  · intro hy p hp
    simp [getCurrentPrice, hy, hp]
  · intro hy ha p hp
    simp [getCurrentPrice, hy, ha, hp]
  · intro hy ha hf
    simp [getCurrentPrice, hy, ha, hf]

/-- An environment in which every provider fails. -/
def envAllFail : PriceEnv :=
  { yahoo := FetchOutcome.thrown, alphaKeySet := false,
    alpha := FetchOutcome.thrown, fmpKeySet := false,
    fmp := FetchOutcome.thrown }

/-- C9 witness: with every provider failing, the fallback 250 is returned. -/
theorem getCurrentPrice_provider_order_witness : getCurrentPrice envAllFail = 250 :=
  (getCurrentPrice_provider_order envAllFail).2.2.2 rfl rfl rfl

/-! ## Claim C10 -/

/-- C10: `broadcast` delivers the value to every callback in the subscriber
set, in order — the iteration completes with `Except.ok` listing every
subscriber's identity no matter which callbacks throw, because each
invocation is wrapped in its own `try`/`catch` — and the subscriber set is
left unchanged, so a throwing callback is neither skipped over nor removed. -/
theorem broadcast_delivers_to_all {α : Type} (subs : List (Subscriber α))
    (data : α) :
    broadcastRun subs data = Except.ok (subs.map Subscriber.id) ∧
    (wsBroadcast subs data).2 = subs := by
  refine ⟨?_, rfl⟩
  induction subs with
  | nil => rfl
  | cons cb rest ih =>
    cases h : cb.run data with
    | ok u =>
      simp only [broadcastRun, tryCatchLog, h, ih]
      rfl
    | error e =>
      simp only [broadcastRun, tryCatchLog, h, ih]
      rfl
